import Mathlib

/-!
# Project API handlers (main.go)

A shallow embedding of the two request handlers registered in `main`
(`GET /projects`, `PUT /projects/{name}`) and of the listen-address
computation.  The handlers are closures over a MongoDB collection handle; here
the collection is an explicit record of operations threading a store state, the
clock reading of `time.Now()` is an explicit argument, and the Go result pair
`(*Response[T], error)` is a pair of options (`none` is `nil`).
-/

namespace Huma

/-! ## Data model (main.go, lines 16-37) -/

/-- A reading of the wall clock (`time.Time`), in nanoseconds since the Unix epoch. -/
abbrev Time := Int

/-- Project defines a single project with a URL and the language it was written in. -/
structure Project where
  Added : Time
  Language : String
  URL : String
deriving DecidableEq, Repr

/-- ProjectRecord is a MongoDB record for a project. -/
structure ProjectRecord where
  Name : String
  Project : Project
deriving DecidableEq, Repr

/-- Response is a generic response type for the API with just a simple body. -/
structure Response (T : Type) where
  Body : T
deriving DecidableEq, Repr

/-- NewResponse returns the response type with the right body. -/
def NewResponse {T : Type} (body : T) : Response T :=
  { Body := body }

/-! ## Collaborators used by the handlers -/

/-- A value stored under a key of a `bson.M` document. -/
inductive Value where
  | str (s : String)
  | time (t : Time)
deriving DecidableEq, Repr

/-- The filter document `bson.M`: a map from keys to values, kept as the list of
its entries (at most one entry per key). -/
structure M where
  entries : List (String × Value)
deriving DecidableEq, Repr

/-- The literal `bson.M{}`. -/
def M.empty : M :=
  { entries := [] }

/-- The map assignment `m[k] = v`: the entry for `k` is replaced or added. -/
def M.set (m : M) (k : String) (v : Value) : M :=
  { entries := m.entries.filter (fun e => e.1 != k) ++ [(k, v)] }

/-- The error value a store call may return. -/
abbrev StoreError := String

/-- The error value built by the framework: a status code, the status text and
the message given by the handler. -/
structure ErrorModel where
  Status : Nat
  Title : String
  Detail : String
deriving DecidableEq, Repr

/-- Modelled from the spec: the framework constructor
`huma.Error500InternalServerError` (library code, not part of the repository):
a 500 response carrying the handler's message. -/
def Error500InternalServerError (msg : String) : ErrorModel :=
  { Status := 500, Title := "Internal Server Error", Detail := msg }

/-- The collection handle the handlers close over: `Find`, the cursor's `All`
and `Close`, and `InsertOne`, each threading the store state `σ`; `κ` is the
type of cursors. -/
structure Collection (σ κ : Type) where
  Find : M → σ → Except StoreError κ × σ
  All : κ → σ → Except StoreError (List ProjectRecord) × σ
  Close : κ → σ → Except StoreError Unit × σ
  InsertOne : ProjectRecord → σ → Except StoreError Unit × σ

/-! ## The handlers (main.go, lines 58-96) and the listen address (98-104) -/

/-- The filter built by the GET handler (lines 62-66): empty, with the key
`project.language` set when the language input is not the empty string. -/
def listFilter (Language : String) : M :=
  let filter := M.empty
  if Language != "" then
    filter.set "project.language" (Value.str Language)
  else
    filter

/-- The `GET /projects` handler (lines 58-78).  The deferred `cursor.Close`
runs on both exits that follow a successful `Find`; the error it may return is
dropped. -/
def getProjects {σ κ : Type} (collection : Collection σ κ) (Language : String) (s : σ) :
    (Option (Response (List ProjectRecord)) × Option ErrorModel) × σ :=
  let filter := listFilter Language
  match collection.Find filter s with
  | (Except.error _, s1) =>
    ((none, some (Error500InternalServerError "failed to fetch projects")), s1)
  | (Except.ok cursor, s1) =>
    match collection.All cursor s1 with
    | (Except.error _, s2) =>
      ((none, some (Error500InternalServerError "failed to decode projects")),
        (collection.Close cursor s2).2)
    | (Except.ok projects, s2) =>
      ((some (NewResponse projects), none), (collection.Close cursor s2).2)

/-- The `PUT /projects/{name}` handler (lines 80-96); `now` is the value of
`time.Now()` read at line 84. -/
def putProject {σ κ : Type} (collection : Collection σ κ) (now : Time) (Name : String)
    (Body : Project) (s : σ) : (Option (Response Project) × Option ErrorModel) × σ :=
  let Body : Project := { Body with Added := now }
  let record : ProjectRecord := { Name := Name, Project := Body }
  match collection.InsertOne record s with
  | (Except.error _, s1) =>
    ((none, some (Error500InternalServerError "failed to insert project")), s1)
  | (Except.ok _, s1) =>
    ((some (NewResponse record.Project), none), s1)

/-- The process environment: `os.Getenv` yields the empty string for a variable
that is not set. -/
def Getenv (env : String → Option String) (key : String) : String :=
  (env key).getD ""

/-- The address passed to `http.ListenAndServe` (lines 99-104). -/
def listenAddr (env : String → Option String) : String :=
  let port := Getenv env "PORT"
  let port := if port = "" then "9050" else port
  ":" ++ port

/-! ## Store models -/

/-- One call made on the collection handle or on a cursor obtained from it. -/
inductive Call where
  | find (filter : M)
  | all
  | close
  | insertOne (record : ProjectRecord)
deriving DecidableEq, Repr

/-- A collection that behaves as `c` and appends every call it receives to a log
kept next to the state of `c`. -/
def traced {σ κ : Type} (c : Collection σ κ) : Collection (σ × List Call) κ where
  Find := fun filter st => ((c.Find filter st.1).1, ((c.Find filter st.1).2, st.2 ++ [Call.find filter]))
  All := fun cursor st => ((c.All cursor st.1).1, ((c.All cursor st.1).2, st.2 ++ [Call.all]))
  Close := fun cursor st =>
    ((c.Close cursor st.1).1, ((c.Close cursor st.1).2, st.2 ++ [Call.close]))
  InsertOne := fun record st =>
    ((c.InsertOne record st.1).1, ((c.InsertOne record st.1).2, st.2 ++ [Call.insertOne record]))

/-- The value of a record at a (dotted) field path, with the field names of the
JSON struct tags. -/
def ProjectRecord.field (r : ProjectRecord) (path : String) : Option Value :=
  if path = "name" then some (Value.str r.Name)
  else if path = "project.added" then some (Value.time r.Project.Added)
  else if path = "project.language" then some (Value.str r.Project.Language)
  else if path = "project.url" then some (Value.str r.Project.URL)
  else none

/-- Modelled from the spec: equality filtering of the document store (external
to the repository): a record matches when each entry of the filter equals the
record's value at that path. -/
def M.selects (filter : M) (r : ProjectRecord) : Bool :=
  filter.entries.all (fun e => decide (r.field e.1 = some e.2))

/-- Simulated failures of the store: the error, if any, that each kind of call
returns. -/
structure Fault where
  onFind : Option StoreError
  onAll : Option StoreError
  onClose : Option StoreError
  onInsertOne : Option StoreError
deriving DecidableEq, Repr

/-- The store in which no call fails. -/
def noFault : Fault :=
  { onFind := none, onAll := none, onClose := none, onInsertOne := none }

/-- Modelled from the spec: the timestamp the document store (external to the
repository) gives back for a `time.Time` it was given.  The store keeps it as a
BSON datetime, a whole number of milliseconds since the Unix epoch, so what is
read back is the timestamp rounded down to the millisecond. -/
def bsonDateTime (t : Time) : Time :=
  t / 1000000 * 1000000

/-- The record as the store keeps it: the strings as they are, the timestamp as
a BSON datetime. -/
def ProjectRecord.stored (r : ProjectRecord) : ProjectRecord :=
  { Name := r.Name,
    Project := { Added := bsonDateTime r.Project.Added,
                 Language := r.Project.Language, URL := r.Project.URL } }

/-- Modelled from the spec: the document store (external to the repository) as
the list of its records in insertion order.  `Find` selects the records that
match the filter, the cursor yields them in order, `InsertOne` appends the
record as the store keeps it, and a call that fails leaves the records as they
were. -/
def memCollection (fault : Fault) : Collection (List ProjectRecord) (List ProjectRecord) where
  Find := fun filter docs =>
    match fault.onFind with
    | some e => (Except.error e, docs)
    | none => (Except.ok (docs.filter (fun r => filter.selects r)), docs)
  All := fun cursor docs =>
    match fault.onAll with
    | some e => (Except.error e, docs)
    | none => (Except.ok cursor, docs)
  Close := fun _ docs =>
    match fault.onClose with
    | some e => (Except.error e, docs)
    | none => (Except.ok (), docs)
  InsertOne := fun record docs =>
    match fault.onInsertOne with
    | some e => (Except.error e, docs)
    | none => (Except.ok (), docs ++ [record.stored])

/-- Whether a call is a `Find`. -/
def Call.isFind : Call → Bool
  | Call.find _ => true
  | _ => false

/-- Whether a call is an `InsertOne`. -/
def Call.isInsertOne : Call → Bool
  | Call.insertOne _ => true
  | _ => false

/-! ## Auxiliary facts -/

theorem listFilter_of_ne (X : String) (hX : X ≠ "") :
    listFilter X = { entries := [("project.language", Value.str X)] } := by
  simp [listFilter, M.set, M.empty, hX]

theorem listFilter_blank : listFilter "" = M.empty := by
  simp [listFilter]

theorem selects_language (X : String) (r : ProjectRecord) :
    M.selects { entries := [("project.language", Value.str X)] } r
      = decide (r.Project.Language = X) := by
  simp [M.selects, ProjectRecord.field]

theorem selects_empty (r : ProjectRecord) : M.empty.selects r = true := by
  simp [M.selects, M.empty]

theorem filter_selects_empty (docs : List ProjectRecord) :
    docs.filter (fun r => M.empty.selects r) = docs := by
  simp [selects_empty]

/-- A BSON datetime is the timestamp rounded down to the millisecond. -/
theorem bsonDateTime_bounds (t : Int) :
    bsonDateTime t ≤ t ∧ t < bsonDateTime t + 1000000 ∧
    (t % 1000000 = 0 → bsonDateTime t = t) := by
  show t / 1000000 * 1000000 ≤ t ∧ t < t / 1000000 * 1000000 + 1000000 ∧
    (t % 1000000 = 0 → t / 1000000 * 1000000 = t)
  omega

/-- The GET handler when `Find` fails. -/
theorem getProjects_of_find_error {σ κ : Type} (c : Collection σ κ) (L : String) (s s1 : σ)
    (e : StoreError) (hF : c.Find (listFilter L) s = (Except.error e, s1)) :
    getProjects c L s
      = ((none, some (Error500InternalServerError "failed to fetch projects")), s1) := by
  simp [getProjects, hF]

/-- The GET handler when `Find` succeeds and the cursor fails. -/
theorem getProjects_of_all_error {σ κ : Type} (c : Collection σ κ) (L : String) (s s1 s2 : σ)
    (k : κ) (e : StoreError) (hF : c.Find (listFilter L) s = (Except.ok k, s1))
    (hA : c.All k s1 = (Except.error e, s2)) :
    getProjects c L s
      = ((none, some (Error500InternalServerError "failed to decode projects")),
          (c.Close k s2).2) := by
  simp [getProjects, hF, hA]

/-- The GET handler when `Find` and the cursor succeed. -/
theorem getProjects_of_ok {σ κ : Type} (c : Collection σ κ) (L : String) (s s1 s2 : σ)
    (k : κ) (recs : List ProjectRecord) (hF : c.Find (listFilter L) s = (Except.ok k, s1))
    (hA : c.All k s1 = (Except.ok recs, s2)) :
    getProjects c L s = ((some { Body := recs }, none), (c.Close k s2).2) := by
  simp [getProjects, hF, hA, NewResponse]

/-- The PUT handler when `InsertOne` fails. -/
theorem putProject_of_error {σ κ : Type} (c : Collection σ κ) (now : Time) (n : String)
    (b : Project) (s s1 : σ) (e : StoreError)
    (hI : c.InsertOne ⟨n, ⟨now, b.Language, b.URL⟩⟩ s = (Except.error e, s1)) :
    putProject c now n b s
      = ((none, some (Error500InternalServerError "failed to insert project")), s1) := by
  simp [putProject, hI]

/-- The PUT handler when `InsertOne` succeeds. -/
theorem putProject_of_ok {σ κ : Type} (c : Collection σ κ) (now : Time) (n : String)
    (b : Project) (s s1 : σ) (u : Unit)
    (hI : c.InsertOne ⟨n, ⟨now, b.Language, b.URL⟩⟩ s = (Except.ok u, s1)) :
    putProject c now n b s
      = ((some { Body := ⟨now, b.Language, b.URL⟩ }, none), s1) := by
  simp [putProject, hI, NewResponse]

/-- The calls a run of the GET handler makes, in order, on a logging collection. -/
theorem getProjects_traced_calls {σ κ : Type} (c : Collection σ κ) (L : String) (s : σ)
    (log : List Call) :
    (getProjects (traced c) L (s, log)).2.2 = log ++ [Call.find (listFilter L)] ∨
    (getProjects (traced c) L (s, log)).2.2
      = log ++ [Call.find (listFilter L), Call.all, Call.close] := by
  unfold getProjects
  simp only [traced]
  rcases hF : c.Find (listFilter L) s with ⟨rF, s1⟩
  cases rF with
  | error e => left; simp
  | ok k =>
    right
    rcases hA : c.All k s1 with ⟨rA, s2⟩
    cases rA <;> simp [hA]

/-- The result of the GET handler on the list store, by the simulated faults. -/
theorem getProjects_mem (fault : Fault) (L : String) (docs : List ProjectRecord) :
    getProjects (memCollection fault) L docs =
      match fault.onFind, fault.onAll with
      | some _, _ => ((none, some (Error500InternalServerError "failed to fetch projects")), docs)
      | none, some _ =>
        ((none, some (Error500InternalServerError "failed to decode projects")), docs)
      | none, none =>
        ((some (NewResponse (docs.filter (fun r => (listFilter L).selects r))), none), docs) := by
  unfold getProjects memCollection
  cases hF : fault.onFind <;> cases hA : fault.onAll <;> cases hC : fault.onClose <;> simp

/-- The result of the PUT handler on the list store, by the simulated fault. -/
theorem putProject_mem (fault : Fault) (now : Time) (n : String) (b : Project)
    (docs : List ProjectRecord) :
    putProject (memCollection fault) now n b docs =
      match fault.onInsertOne with
      | some _ => ((none, some (Error500InternalServerError "failed to insert project")), docs)
      | none =>
        ((some (NewResponse { b with Added := now }), none),
          docs ++ [{ Name := n,
                     Project := { Added := bsonDateTime now, Language := b.Language,
                                  URL := b.URL } }]) := by
  unfold putProject memCollection
  cases hI : fault.onInsertOne <;> simp [ProjectRecord.stored]

/-! ## Listing -/

/-- C1: for a non-empty language X the GET handler makes exactly one Find call,
with the filter whose only entry is project.language = X; over the list store a
record is in a successful response body exactly when it is stored and has
project.language = X, and without faults the response is the stored records
with that language, in order. -/
theorem getProjects_language_filter (X : String) (hX : X ≠ "") :
    (∀ (σ κ : Type) (c : Collection σ κ) (s : σ) (log : List Call),
      ∃ rest, (getProjects (traced c) X (s, log)).2.2
          = log ++ Call.find { entries := [("project.language", Value.str X)] } :: rest
        ∧ ∀ call ∈ rest, call.isFind = false) ∧
    (∀ (fault : Fault) (docs body : List ProjectRecord),
      (getProjects (memCollection fault) X docs).1.1 = some { Body := body } →
        ∀ r, r ∈ body ↔ (r ∈ docs ∧ r.Project.Language = X)) ∧
    (∀ docs : List ProjectRecord,
      (getProjects (memCollection noFault) X docs).1
        = (some { Body := docs.filter (fun r => decide (r.Project.Language = X)) }, none)) := by
  refine ⟨?_, ?_, ?_⟩
  · intro σ κ c s log
    rcases getProjects_traced_calls c X s log with h | h
    · exact ⟨[], by rw [h, listFilter_of_ne X hX], by simp⟩
    · refine ⟨[Call.all, Call.close], by rw [h, listFilter_of_ne X hX], ?_⟩
      intro call hc
      simp at hc
      rcases hc with rfl | rfl <;> rfl
  · intro fault docs body h r
    rw [getProjects_mem, listFilter_of_ne X hX] at h
    cases hF : fault.onFind <;> cases hA : fault.onAll <;> simp [hF, hA, NewResponse] at h
    subst h
    simp [selects_language]
  · intro docs
    rw [getProjects_mem, listFilter_of_ne X hX]
    simp [noFault, NewResponse, selects_language]

/-- An instance of C1: listing with language "go" over a store of three records. -/
theorem getProjects_language_filter_witness :
    ("go" : String) ≠ "" ∧
    (getProjects (memCollection noFault) "go"
        [⟨"a", ⟨1, "go", "u"⟩⟩, ⟨"b", ⟨2, "rust", "v"⟩⟩, ⟨"c", ⟨3, "go", "w"⟩⟩]).1
      = (some { Body := [⟨"a", ⟨1, "go", "u"⟩⟩, ⟨"c", ⟨3, "go", "w"⟩⟩] }, none) :=
  ⟨by decide, by
    rw [(getProjects_language_filter "go" (by decide)).2.2]
    decide⟩

/-- C2: with the empty language input the GET handler calls Find once, with the
empty filter; when Find and the cursor succeed, the response body is the list
the cursor yielded, unchanged, and there is no error; over the list store
without faults the body is the whole list of stored records. -/
theorem getProjects_unfiltered {σ κ : Type} (c : Collection σ κ) (s s1 s2 : σ) (cursor : κ)
    (recs : List ProjectRecord)
    (hFind : c.Find M.empty s = (Except.ok cursor, s1))
    (hAll : c.All cursor s1 = (Except.ok recs, s2)) :
    (getProjects c "" s).1 = (some { Body := recs }, none) ∧
    (∀ log : List Call, (getProjects (traced c) "" (s, log)).2.2
        = log ++ [Call.find M.empty, Call.all, Call.close]) ∧
    (∀ docs : List ProjectRecord,
      (getProjects (memCollection noFault) "" docs).1 = (some { Body := docs }, none)) := by
  refine ⟨?_, ?_, ?_⟩
  · unfold getProjects
    simp [listFilter_blank, hFind, hAll, NewResponse]
  · intro log
    unfold getProjects
    simp [listFilter_blank, traced, hFind, hAll]
  · intro docs
    rw [getProjects_mem, listFilter_blank]
    simp [noFault, NewResponse, selects_empty]

/-- An instance of C2: an unfiltered listing over a store of two records. -/
theorem getProjects_unfiltered_witness :
    (getProjects (memCollection noFault) "" [⟨"a", ⟨1, "go", "u"⟩⟩, ⟨"b", ⟨2, "rust", "v"⟩⟩]).1
      = (some { Body := [⟨"a", ⟨1, "go", "u"⟩⟩, ⟨"b", ⟨2, "rust", "v"⟩⟩] }, none) :=
  (getProjects_unfiltered (memCollection noFault)
    [⟨"a", ⟨1, "go", "u"⟩⟩, ⟨"b", ⟨2, "rust", "v"⟩⟩] [⟨"a", ⟨1, "go", "u"⟩⟩, ⟨"b", ⟨2, "rust", "v"⟩⟩]
    [⟨"a", ⟨1, "go", "u"⟩⟩, ⟨"b", ⟨2, "rust", "v"⟩⟩] [⟨"a", ⟨1, "go", "u"⟩⟩, ⟨"b", ⟨2, "rust", "v"⟩⟩]
    [⟨"a", ⟨1, "go", "u"⟩⟩, ⟨"b", ⟨2, "rust", "v"⟩⟩] rfl rfl).1

/-! ## Insertion -/

/-- The PUT handler makes one call, `InsertOne`, with the record built from the
path name, the clock reading and the language and URL of the body. -/
theorem putProject_traced_calls {σ κ : Type} (c : Collection σ κ) (now : Time) (n : String)
    (b : Project) (s : σ) (log : List Call) :
    (putProject (traced c) now n b (s, log)).2.2
      = log ++ [Call.insertOne
          { Name := n, Project := { Added := now, Language := b.Language, URL := b.URL } }] := by
  unfold putProject
  simp only [traced]
  rcases hI : c.InsertOne
    { Name := n, Project := { Added := now, Language := b.Language, URL := b.URL } } s with ⟨rI, s1⟩
  cases rI <;> simp

/-- Logging the calls does not change what the PUT handler returns. -/
theorem putProject_traced_result {σ κ : Type} (c : Collection σ κ) (now : Time) (n : String)
    (b : Project) (s : σ) (log : List Call) :
    (putProject (traced c) now n b (s, log)).1 = (putProject c now n b s).1 := by
  unfold putProject
  simp only [traced]
  rcases hI : c.InsertOne
    { Name := n, Project := { Added := now, Language := b.Language, URL := b.URL } } s with ⟨rI, s1⟩
  cases rI <;> simp

/-- The two possible results of the PUT handler. -/
theorem putProject_result_cases {σ κ : Type} (c : Collection σ κ) (now : Time) (n : String)
    (b : Project) (s : σ) :
    (putProject c now n b s).1
        = (none, some (Error500InternalServerError "failed to insert project")) ∨
    (putProject c now n b s).1
        = (some { Body := { Added := now, Language := b.Language, URL := b.URL } }, none) := by
  rcases hI : c.InsertOne ⟨n, ⟨now, b.Language, b.URL⟩⟩ s with ⟨rI, s1⟩
  cases rI with
  | error e => left; rw [putProject_of_error c now n b s s1 e hI]
  | ok u => right; rw [putProject_of_ok c now n b s s1 u hI]

/-- C3: the record given to the store and the returned Project carry the clock
reading of the handler as their added timestamp: two PUT requests with the same
name, language and URL, handled at the same clock reading in the same store
state, make the same store call and return the same result whatever Added
values their bodies carry. -/
theorem putProject_added_from_clock {σ κ : Type} (c : Collection σ κ) (now : Time) (n : String)
    (b1 b2 : Project) (s : σ) (log : List Call)
    (hL : b1.Language = b2.Language) (hU : b1.URL = b2.URL) :
    putProject (traced c) now n b1 (s, log) = putProject (traced c) now n b2 (s, log) ∧
    (putProject (traced c) now n b1 (s, log)).2.2
      = log ++ [Call.insertOne
          { Name := n, Project := { Added := now, Language := b1.Language, URL := b1.URL } }] ∧
    (∀ resp, (putProject c now n b1 s).1.1 = some resp → resp.Body.Added = now) := by
  refine ⟨?_, putProject_traced_calls c now n b1 s log, ?_⟩
  · unfold putProject
    simp only [hL, hU]
  · intro resp h
    rcases putProject_result_cases c now n b1 s with h1 | h1
    · rw [h1] at h; simp at h
    · rw [h1] at h; simp at h; subst h; rfl

/-- An instance of C3: two bodies that differ only in Added, at clock reading 7. -/
theorem putProject_added_from_clock_witness :
    putProject (traced (memCollection noFault)) 7 "n1" ⟨5, "go", "u"⟩ ([], [])
      = putProject (traced (memCollection noFault)) 7 "n1" ⟨99, "go", "u"⟩ ([], []) :=
  (putProject_added_from_clock (memCollection noFault) 7 "n1" ⟨5, "go", "u"⟩ ⟨99, "go", "u"⟩
    [] [] rfl rfl).1

/-- C4: the PUT handler makes exactly one store call, an InsertOne, and no Find;
over the list store a successful PUT makes the store one record longer, and two
successful PUTs with the same name append two records with that name (each with
its stamp as the store keeps it), so the number of records with that name grows
by two. -/
theorem putProject_always_inserts (f1 f2 : Fault) (t1 t2 : Time) (n : String) (b1 b2 : Project)
    (docs : List ProjectRecord)
    (h1 : (putProject (memCollection f1) t1 n b1 docs).1.2 = none)
    (h2 : (putProject (memCollection f2) t2 n b2
            (putProject (memCollection f1) t1 n b1 docs).2).1.2 = none) :
    (∀ (σ κ : Type) (c : Collection σ κ) (s : σ) (log : List Call) (now : Time) (m : String)
        (b : Project),
      (putProject (traced c) now m b (s, log)).2.2
        = log ++ [Call.insertOne
            { Name := m, Project := { Added := now, Language := b.Language, URL := b.URL } }]) ∧
    (putProject (memCollection f1) t1 n b1 docs).2.length = docs.length + 1 ∧
    (putProject (memCollection f2) t2 n b2 (putProject (memCollection f1) t1 n b1 docs).2).2
      = docs ++ [{ Name := n, Project := { Added := bsonDateTime t1, Language := b1.Language,
                                           URL := b1.URL } },
                 { Name := n, Project := { Added := bsonDateTime t2, Language := b2.Language,
                                           URL := b2.URL } }] ∧
    ((putProject (memCollection f2) t2 n b2
        (putProject (memCollection f1) t1 n b1 docs).2).2.filter
          (fun r => decide (r.Name = n))).length
      = (docs.filter (fun r => decide (r.Name = n))).length + 2 := by
  rw [putProject_mem] at h2
  rw [putProject_mem] at h1 h2
  simp only [putProject_mem]
  cases hf1 : f1.onInsertOne with
  | some e => simp [hf1] at h1
  | none =>
    cases hf2 : f2.onInsertOne with
    | some e => simp [hf1, hf2] at h2
    | none =>
      refine ⟨fun σ κ c s log now m b => putProject_traced_calls c now m b s log, ?_, ?_, ?_⟩
      · simp
      · simp
      · simp [List.filter_append]

/-- An instance of C4: two PUTs under the name "n1" into the empty store. -/
theorem putProject_always_inserts_witness :
    (putProject (memCollection noFault) 2700000 "n1" ⟨0, "rust", "v"⟩
        (putProject (memCollection noFault) 1500000 "n1" ⟨0, "go", "u"⟩ []).2).2
      = [] ++ [⟨"n1", ⟨bsonDateTime 1500000, "go", "u"⟩⟩,
               ⟨"n1", ⟨bsonDateTime 2700000, "rust", "v"⟩⟩] :=
  (putProject_always_inserts noFault noFault 1500000 2700000 "n1" ⟨0, "go", "u"⟩
    ⟨0, "rust", "v"⟩ [] (by decide) (by decide)).2.2.1

/-- C5, as stated, fails: a PUT stamped at 1.5 ms after the epoch succeeds and
returns that stamp, and the unfiltered GET that follows succeeds, but the listed
record carries the stamp rounded down to 1 ms, so the body holds no record
whose added timestamp is the stamp of the PUT. -/
theorem listed_stamp_differs_from_clock :
    (putProject (memCollection noFault) 1500000 "n1" ⟨0, "go", "u"⟩ []).1
      = (some { Body := ⟨1500000, "go", "u"⟩ }, none) ∧
    (getProjects (memCollection noFault) ""
        (putProject (memCollection noFault) 1500000 "n1" ⟨0, "go", "u"⟩ []).2).1
      = (some { Body := [⟨"n1", ⟨1000000, "go", "u"⟩⟩] }, none) ∧
    ¬ ∃ body, (getProjects (memCollection noFault) ""
          (putProject (memCollection noFault) 1500000 "n1" ⟨0, "go", "u"⟩ []).2).1.1
            = some { Body := body } ∧
        ({ Name := "n1", Project := { Added := 1500000, Language := "go", URL := "u" } }
          : ProjectRecord) ∈ body := by
  have hGet : (getProjects (memCollection noFault) ""
      (putProject (memCollection noFault) 1500000 "n1" ⟨0, "go", "u"⟩ []).2).1
        = (some { Body := [⟨"n1", ⟨1000000, "go", "u"⟩⟩] }, none) := by decide
  refine ⟨by decide, hGet, ?_⟩
  rintro ⟨body, hBody, hMem⟩
  rw [hGet] at hBody
  simp only [Option.some.injEq, Response.mk.injEq] at hBody
  subst hBody
  revert hMem
  decide

/-- C5, amended: over the list store, after a successful PUT of body p under
name n at clock reading now, a successful unfiltered GET returns a body that
contains the record with name n, the language and URL of p, and as added
timestamp the stamp of the PUT as the store keeps it: now rounded down to the
millisecond, which is at most now, less than a millisecond before it, and now
itself when now is a whole number of milliseconds. -/
theorem put_then_list (fP fG : Fault) (now : Time) (n : String) (p : Project)
    (docs : List ProjectRecord)
    (hPut : (putProject (memCollection fP) now n p docs).1.2 = none)
    (hGet : (getProjects (memCollection fG) ""
              (putProject (memCollection fP) now n p docs).2).1.2 = none) :
    (∃ body, (getProjects (memCollection fG) ""
              (putProject (memCollection fP) now n p docs).2).1.1 = some { Body := body } ∧
      ({ Name := n, Project := { Added := bsonDateTime now, Language := p.Language,
                                 URL := p.URL } } : ProjectRecord) ∈ body) ∧
    bsonDateTime now ≤ now ∧ now < bsonDateTime now + 1000000 ∧
    (now % 1000000 = 0 → bsonDateTime now = now) := by
  refine ⟨?_, ?_, ?_, ?_⟩
  · rw [getProjects_mem] at hGet
    rw [putProject_mem] at hPut hGet
    simp only [getProjects_mem, putProject_mem]
    cases hfP : fP.onInsertOne with
    | some e => simp [hfP] at hPut
    | none =>
      cases hF : fG.onFind with
      | some e => simp [hF] at hGet
      | none =>
        cases hA : fG.onAll with
        | some e => simp [hF, hA] at hGet
        | none =>
          refine ⟨docs ++ [⟨n, ⟨bsonDateTime now, p.Language, p.URL⟩⟩], ?_, by simp⟩
          simp [listFilter_blank, selects_empty, NewResponse]
  · exact (bsonDateTime_bounds now).1
  · exact (bsonDateTime_bounds now).2.1
  · exact (bsonDateTime_bounds now).2.2

/-- An instance of C5: a PUT under "n1" stamped at 1.5 ms after the epoch, then
an unfiltered GET, which lists the record with the stamp 1 ms. -/
theorem put_then_list_witness :
    ∃ body, (getProjects (memCollection noFault) ""
              (putProject (memCollection noFault) 1500000 "n1" ⟨5, "go", "u"⟩ []).2).1.1
                = some { Body := body } ∧
      ({ Name := "n1", Project := { Added := bsonDateTime 1500000, Language := "go",
                                    URL := "u" } } : ProjectRecord) ∈ body :=
  (put_then_list noFault noFault 1500000 "n1" ⟨5, "go", "u"⟩ [] (by decide) (by decide)).1

/-! ## Failures -/

/-- C6: each handler returns an error exactly when one of its store calls fails
(Find, or the cursor after a successful Find, for GET; InsertOne for PUT); a
returned error has status 500 and comes with a nil response, and when no error
is returned the response is not nil. -/
theorem handlers_error_iff_store_failure {σ κ : Type} (c : Collection σ κ) (L : String)
    (now : Time) (n : String) (b : Project) (s : σ) :
    ((getProjects c L s).1.2 ≠ none ↔
      ((∃ e s1, c.Find (listFilter L) s = (Except.error e, s1)) ∨
       (∃ k s1 e s2, c.Find (listFilter L) s = (Except.ok k, s1) ∧
          c.All k s1 = (Except.error e, s2)))) ∧
    ((getProjects c L s).1.2 ≠ none →
      (getProjects c L s).1.1 = none ∧
        ∃ err, (getProjects c L s).1.2 = some err ∧ err.Status = 500) ∧
    ((getProjects c L s).1.2 = none → (getProjects c L s).1.1 ≠ none) ∧
    ((putProject c now n b s).1.2 ≠ none ↔
      ∃ e s1, c.InsertOne ⟨n, ⟨now, b.Language, b.URL⟩⟩ s = (Except.error e, s1)) ∧
    ((putProject c now n b s).1.2 ≠ none →
      (putProject c now n b s).1.1 = none ∧
        ∃ err, (putProject c now n b s).1.2 = some err ∧ err.Status = 500) ∧
    ((putProject c now n b s).1.2 = none → (putProject c now n b s).1.1 ≠ none) := by
  have hGet : ((getProjects c L s).1.2 ≠ none ↔
      ((∃ e s1, c.Find (listFilter L) s = (Except.error e, s1)) ∨
       (∃ k s1 e s2, c.Find (listFilter L) s = (Except.ok k, s1) ∧
          c.All k s1 = (Except.error e, s2)))) ∧
    ((getProjects c L s).1.2 ≠ none →
      (getProjects c L s).1.1 = none ∧
        ∃ err, (getProjects c L s).1.2 = some err ∧ err.Status = 500) ∧
    ((getProjects c L s).1.2 = none → (getProjects c L s).1.1 ≠ none) := by
    rcases hF : c.Find (listFilter L) s with ⟨rF, s1⟩
    cases rF with
    | error e =>
      rw [getProjects_of_find_error c L s s1 e hF]
      simp [Error500InternalServerError]
    | ok k =>
      rcases hA : c.All k s1 with ⟨rA, s2⟩
      cases rA with
      | error e =>
        rw [getProjects_of_all_error c L s s1 s2 k e hF hA]
        refine ⟨⟨fun _ => Or.inr ⟨k, s1, e, s2, rfl, hA⟩, fun _ => by simp⟩, ?_, by simp⟩
        intro _
        exact ⟨rfl, _, rfl, rfl⟩
      | ok recs =>
        rw [getProjects_of_ok c L s s1 s2 k recs hF hA]
        simp [hA]
  have hPut : ((putProject c now n b s).1.2 ≠ none ↔
      ∃ e s1, c.InsertOne ⟨n, ⟨now, b.Language, b.URL⟩⟩ s = (Except.error e, s1)) ∧
    ((putProject c now n b s).1.2 ≠ none →
      (putProject c now n b s).1.1 = none ∧
        ∃ err, (putProject c now n b s).1.2 = some err ∧ err.Status = 500) ∧
    ((putProject c now n b s).1.2 = none → (putProject c now n b s).1.1 ≠ none) := by
    rcases hI : c.InsertOne ⟨n, ⟨now, b.Language, b.URL⟩⟩ s with ⟨rI, s1⟩
    cases rI with
    | error e =>
      rw [putProject_of_error c now n b s s1 e hI]
      simp [Error500InternalServerError]
    | ok u =>
      rw [putProject_of_ok c now n b s s1 u hI]
      simp
  exact ⟨hGet.1, hGet.2.1, hGet.2.2, hPut.1, hPut.2.1, hPut.2.2⟩

/-- C7, as stated, fails: a GET whose Find call fails and a GET whose cursor
decoding fails return different error responses. -/
theorem getProjects_failures_differ :
    (getProjects (memCollection ⟨some "connection lost", none, none, none⟩) "" []).1
      = (none, some ⟨500, "Internal Server Error", "failed to fetch projects"⟩) ∧
    (getProjects (memCollection ⟨none, some "malformed document", none, none⟩) "" []).1
      = (none, some ⟨500, "Internal Server Error", "failed to decode projects"⟩) ∧
    (getProjects (memCollection ⟨some "connection lost", none, none, none⟩) "" []).1.2
      ≠ (getProjects (memCollection ⟨none, some "malformed document", none, none⟩) "" []).1.2 := by
  decide

/-- C7, amended: every failed store call is mapped to a 500 response whose
message is fixed by which call failed and does not depend on the store error:
a failed Find gives "failed to fetch projects", a failed cursor decoding gives
"failed to decode projects", a failed InsertOne gives "failed to insert
project"; the handlers return no other error. -/
theorem handler_errors_fixed_per_call {σ κ : Type} (c : Collection σ κ) (L : String)
    (now : Time) (n : String) (b : Project) (s : σ) :
    (∀ e s1, c.Find (listFilter L) s = (Except.error e, s1) →
      (getProjects c L s).1
        = (none, some ⟨500, "Internal Server Error", "failed to fetch projects"⟩)) ∧
    (∀ k s1 e s2, c.Find (listFilter L) s = (Except.ok k, s1) →
      c.All k s1 = (Except.error e, s2) →
      (getProjects c L s).1
        = (none, some ⟨500, "Internal Server Error", "failed to decode projects"⟩)) ∧
    (∀ e s1, c.InsertOne ⟨n, ⟨now, b.Language, b.URL⟩⟩ s = (Except.error e, s1) →
      (putProject c now n b s).1
        = (none, some ⟨500, "Internal Server Error", "failed to insert project"⟩)) ∧
    (∀ err, (getProjects c L s).1.2 = some err →
      err = ⟨500, "Internal Server Error", "failed to fetch projects"⟩ ∨
      err = ⟨500, "Internal Server Error", "failed to decode projects"⟩) ∧
    (∀ err, (putProject c now n b s).1.2 = some err →
      err = ⟨500, "Internal Server Error", "failed to insert project"⟩) := by
  refine ⟨?_, ?_, ?_, ?_, ?_⟩
  · intro e s1 hF
    rw [getProjects_of_find_error c L s s1 e hF]; rfl
  · intro k s1 e s2 hF hA
    rw [getProjects_of_all_error c L s s1 s2 k e hF hA]; rfl
  · intro e s1 hI
    rw [putProject_of_error c now n b s s1 e hI]; rfl
  · intro err h
    rcases hF : c.Find (listFilter L) s with ⟨rF, s1⟩
    cases rF with
    | error e =>
      rw [getProjects_of_find_error c L s s1 e hF] at h
      left; simpa [Error500InternalServerError] using h.symm
    | ok k =>
      rcases hA : c.All k s1 with ⟨rA, s2⟩
      cases rA with
      | error e =>
        rw [getProjects_of_all_error c L s s1 s2 k e hF hA] at h
        right; simpa [Error500InternalServerError] using h.symm
      | ok recs =>
        rw [getProjects_of_ok c L s s1 s2 k recs hF hA] at h
        simp at h
  · intro err h
    rcases putProject_result_cases c now n b s with h1 | h1
    · rw [h1] at h
      simpa [Error500InternalServerError] using h.symm
    · rw [h1] at h
      simp at h

/-! ## Result and effect of an insertion -/

/-- C8: when the PUT handler succeeds, its one store call is an InsertOne of a
record whose name is the path name and whose project has the language and URL
of the request body, and the response body is the project of that record. -/
theorem putProject_returns_stored {σ κ : Type} (c : Collection σ κ) (now : Time) (n : String)
    (b : Project) (s : σ) (log : List Call)
    (hOk : (putProject c now n b s).1.2 = none) :
    ∃ record : ProjectRecord,
      (putProject (traced c) now n b (s, log)).2.2 = log ++ [Call.insertOne record] ∧
      (putProject c now n b s).1 = (some { Body := record.Project }, none) ∧
      (putProject (traced c) now n b (s, log)).1 = (some { Body := record.Project }, none) ∧
      record.Name = n ∧ record.Project.Language = b.Language ∧ record.Project.URL = b.URL := by
  refine ⟨⟨n, ⟨now, b.Language, b.URL⟩⟩, putProject_traced_calls c now n b s log, ?_, ?_,
    rfl, rfl, rfl⟩
  · rcases putProject_result_cases c now n b s with h1 | h1
    · rw [h1] at hOk; simp at hOk
    · exact h1
  · rw [putProject_traced_result]
    rcases putProject_result_cases c now n b s with h1 | h1
    · rw [h1] at hOk; simp at hOk
    · exact h1

/-- An instance of C8: a successful PUT under "n1" at clock reading 7. -/
theorem putProject_returns_stored_witness :
    ∃ record : ProjectRecord,
      (putProject (traced (memCollection noFault)) 7 "n1" ⟨5, "go", "u"⟩ ([], [])).2.2
        = [] ++ [Call.insertOne record] ∧
      (putProject (memCollection noFault) 7 "n1" ⟨5, "go", "u"⟩ []).1
        = (some { Body := record.Project }, none) ∧
      (putProject (traced (memCollection noFault)) 7 "n1" ⟨5, "go", "u"⟩ ([], [])).1
        = (some { Body := record.Project }, none) ∧
      record.Name = "n1" ∧ record.Project.Language = "go" ∧ record.Project.URL = "u" :=
  putProject_returns_stored (memCollection noFault) 7 "n1" ⟨5, "go", "u"⟩ [] [] (by decide)

/-- C9: the GET handler makes no InsertOne call and leaves the list store as it
was, on success and on failure; the PUT handler makes no call but its one
InsertOne and leaves the stored records in place, followed by the new record
(as the store keeps it) when it succeeds and by nothing when it fails. -/
theorem store_never_updated_or_deleted (fault : Fault) (L : String) (now : Time) (n : String)
    (b : Project) (docs : List ProjectRecord) :
    (getProjects (memCollection fault) L docs).2 = docs ∧
    (∀ (σ κ : Type) (c : Collection σ κ) (s : σ) (log : List Call),
      ∃ calls, (getProjects (traced c) L (s, log)).2.2 = log ++ calls ∧
        ∀ call ∈ calls, call.isInsertOne = false) ∧
    (∀ (σ κ : Type) (c : Collection σ κ) (s : σ) (log : List Call),
      (putProject (traced c) now n b (s, log)).2.2
        = log ++ [Call.insertOne ⟨n, ⟨now, b.Language, b.URL⟩⟩]) ∧
    ((putProject (memCollection fault) now n b docs).1.2 = none →
      (putProject (memCollection fault) now n b docs).2
        = docs ++ [⟨n, ⟨bsonDateTime now, b.Language, b.URL⟩⟩]) ∧
    ((putProject (memCollection fault) now n b docs).1.2 ≠ none →
      (putProject (memCollection fault) now n b docs).2 = docs) ∧
    (∀ i : Fin docs.length,
      (putProject (memCollection fault) now n b docs).2[i.val]? = some (docs.get i)) := by
  refine ⟨?_, ?_, fun σ κ c s log => putProject_traced_calls c now n b s log, ?_, ?_, ?_⟩
  · rw [getProjects_mem]
    cases fault.onFind <;> cases fault.onAll <;> rfl
  · intro σ κ c s log
    rcases getProjects_traced_calls c L s log with h | h
    · refine ⟨_, h, ?_⟩
      intro call hc
      simp at hc
      subst hc; rfl
    · refine ⟨_, h, ?_⟩
      intro call hc
      simp at hc
      rcases hc with rfl | rfl | rfl <;> rfl
  · rw [putProject_mem]
    cases fault.onInsertOne <;> simp
  · rw [putProject_mem]
    cases fault.onInsertOne <;> simp
  · intro i
    rw [putProject_mem]
    cases fault.onInsertOne with
    | some e => simp
    | none => simp [List.getElem?_append_left i.isLt]

/-! ## Listen address -/

/-- C10: the listen address is ":" followed by the value of PORT when PORT is
set to a non-empty value, and ":9050" when PORT is unset or empty. -/
theorem listenAddr_port (env : String → Option String) :
    (∀ v, env "PORT" = some v → v ≠ "" → listenAddr env = ":" ++ v) ∧
    (env "PORT" = none → listenAddr env = ":9050") ∧
    (env "PORT" = some "" → listenAddr env = ":9050") := by
  refine ⟨?_, ?_, ?_⟩
  · intro v h hv
    simp [listenAddr, Getenv, h, hv]
  · intro h
    simp [listenAddr, Getenv, h]
  · intro h
    simp [listenAddr, Getenv, h]

end Huma
